import Mathlib

/-!
Shallow embedding of `src/gmic-qt/src/Host/Krita/host_krita.cpp`, the
Krita host bridge of gmic-qt.  The file is a thin IPC client: it builds
textual commands, sends them over a local socket, parses textual
responses, and moves image buffers through shared-memory segments.

The embedding models:
* the Qt string helpers the code relies on (`split` with
  `QT_SKIP_EMPTY_PARTS`, `QString::toInt`, `QByteArray::fromHex`,
  `QString::toLatin1`);
* `getLayersExtent` (response parsing);
* `getCroppedImages` (sentinel-rectangle normalisation, response-line
  parsing, buffer filling from shared memory);
* `outputImages` (registry cleanup, segment creation, message build);
* the 4-byte length-prefix wait loop of `sendMessageSynchronously`.

Strings are `List Char`, byte arrays are `List Nat` (each entry < 256 in
practice), shared-memory contents are oracles.  Out-of-bounds container
indexing (undefined behaviour in a release Qt build) is modelled by
`Option`: a `none` result marks an execution that performs such an
access.
-/

namespace HostKrita

/-- One chunk of `QString::split` keeping empty parts: split a character
list at every occurrence of `sep`. -/
def splitOnChar (sep : Char) : List Char → List (List Char)
  | [] => [[]]
  | c :: rest =>
    match splitOnChar sep rest with
    | [] => if c = sep then [[], []] else [[c]]
    | g :: gs => if c = sep then [] :: g :: gs else (c :: g) :: gs

/-- `QString::split(sep, QT_SKIP_EMPTY_PARTS)`: split at `sep` and drop
the empty parts. -/
def splitSkipEmpty (sep : Char) (s : List Char) : List (List Char) :=
  (splitOnChar sep s).filter (fun g => decide (g ≠ []))

/-- Decimal digit test, as used by integer parsing. -/
def isDigitChar (c : Char) : Bool :=
  decide ('0' ≤ c) && decide (c ≤ '9')

/-- Whitespace skipped by `QString::toInt` at either end of the string. -/
def isQtSpace (c : Char) : Bool :=
  decide (c = ' ') || (decide (9 ≤ c.toNat) && decide (c.toNat ≤ 13))

/-- Value of a non-empty all-digit character list, `none` otherwise. -/
def digitsToNat? (l : List Char) : Option Nat :=
  if l ≠ [] ∧ l.all isDigitChar then
    some (l.foldl (fun a c => 10 * a + (c.toNat - 48)) 0)
  else
    none

/-- Strip Qt whitespace from both ends. -/
def qtTrim (l : List Char) : List Char :=
  ((l.dropWhile isQtSpace).reverse.dropWhile isQtSpace).reverse

/-- Split an optional leading sign from a trimmed numeral: returns the
sign (`-1` or `1`) and the remaining characters. -/
def splitSign (l : List Char) : Int × List Char :=
  match l with
  | [] => (1, [])
  | c :: r => if c = '-' then (-1, r) else if c = '+' then (1, r) else (1, c :: r)

/-- `QString::toInt`: optional sign and decimal digits, surrounded by
optional whitespace; returns 0 when the string is not a valid 32-bit
signed integer. -/
def qToInt (s : List Char) : Int :=
  let t := qtTrim s
  let sd := splitSign t
  match digitsToNat? sd.2 with
  | none => 0
  | some n =>
    let v : Int := sd.1 * (n : Int)
    if -2147483648 ≤ v ∧ v ≤ 2147483647 then v else 0

/-- Hex-digit test for `QByteArray::fromHex`, on byte values. -/
def isHexByte (b : Nat) : Bool :=
  (48 ≤ b && b ≤ 57) || (97 ≤ b && b ≤ 102) || (65 ≤ b && b ≤ 70)

/-- Value of one hex digit given as a byte. -/
def hexVal (b : Nat) : Nat :=
  if 48 ≤ b ∧ b ≤ 57 then b - 48
  else if 97 ≤ b ∧ b ≤ 102 then b - 87
  else if 65 ≤ b ∧ b ≤ 70 then b - 55
  else 0

/-- Pair up hex digits into bytes, high nibble first. -/
def hexPairs : List Nat → List Nat
  | a :: b :: rest => (16 * hexVal a + hexVal b) :: hexPairs rest
  | _ => []

/-- `QByteArray::fromHex`: ignore non-hex bytes; when the number of hex
digits is odd the leading digit stands alone as the low nibble of the
first output byte (equivalently, a leading `0` digit is assumed). -/
def fromHex (bytes : List Nat) : List Nat :=
  let ds := bytes.filter isHexByte
  hexPairs (if ds.length % 2 = 1 then 48 :: ds else ds)

/-- `QString::toLatin1`: characters above U+00FF become `?` (63). -/
def toLatin1 (l : List Char) : List Nat :=
  l.map (fun c => if c.toNat ≤ 255 then c.toNat else 63)

/-- Content of a NUL-terminated C string held in a byte buffer, as read
by `gmic_image<char>::string(ba.constData())`. -/
def cString (bytes : List Nat) : List Nat :=
  bytes.takeWhile (fun b => decide (b ≠ 0))

/-- C conversion of a signed `int` to `unsigned int`, as performed when
an `int` size reaches a CImg `assign` parameter. -/
def u32 (i : Int) : Nat :=
  (i % 4294967296).toNat

/-! ### `getLayersExtent` (host_krita.cpp lines 130-146) -/

/-- Response parsing of `getLayersExtent`: `*width` and `*height` start
at 0 and are overwritten only when the answer is non-empty and splits on
`,` (skipping empty parts) into exactly two fields. -/
def getLayersExtent (answer : List Char) : Int × Int :=
  if 0 < answer.length then
    if h : (splitSkipEmpty ',' answer).length = 2 then
      (qToInt ((splitSkipEmpty ',' answer).get ⟨0, by omega⟩),
       qToInt ((splitSkipEmpty ',' answer).get ⟨1, by omega⟩))
    else
      (0, 0)
  else
    (0, 0)

/-! ### `getCroppedImages` (host_krita.cpp lines 148-233) -/

/-- Sentinel normalisation at lines 153-159: an all-negative rectangle
means "entire image" and becomes `(0,0,1,1)`.  The `double` coordinates
are modelled as rationals: the only operations performed on them
(comparison with 0 and assignment of 0 and 1) are exact in IEEE
doubles. -/
def normalizeRect (x y width height : ℚ) : ℚ × ℚ × ℚ × ℚ :=
  if x < 0 ∧ y < 0 ∧ width < 0 ∧ height < 0 then
    (0, 0, 1, 1)
  else
    (x, y, width, height)

/-- Outgoing `gmic_qt_get_cropped_images` command of line 162, with the
numeric fields kept as values (the decimal rendering performed by
`QString::arg` is not modelled). -/
structure CropCommand where
  mode : Int
  x : ℚ
  y : ℚ
  w : ℚ
  h : ℚ
deriving DecidableEq, Repr

/-- Request-building part of `getCroppedImages` (lines 153-163): the
crop rectangle placed in the outgoing command, after sentinel
normalisation. -/
def getCroppedImagesRequest (x y width height : ℚ) (mode : Int) : CropCommand :=
  let r := normalizeRect x y width height
  ⟨mode, r.1, r.2.1, r.2.2.1, r.2.2.2⟩

/-- A `gmic_image` buffer: CImg dimensions (unsigned) plus the sample
data.  Samples are an abstract type `α` standing for `float`. -/
structure GImg (α : Type) where
  width : Nat
  height : Nat
  depth : Nat
  spectrum : Nat
  data : List α
deriving DecidableEq, Repr

/-- The empty image a fresh `gmic_list` slot holds after
`images.assign(N)`. -/
def emptyGImg (α : Type) : GImg α :=
  ⟨0, 0, 0, 0, []⟩

/-- Data parsed from one response line at lines 185-194: shared-memory
key (`parts[0]`), decoded layer name (`parts[1]`, hex, read as a C
string), and the two size fields (`parts[2]`, `parts[3]`). -/
structure CropEntry where
  key : List Char
  name : List Nat
  w : Int
  h : Int
deriving DecidableEq, Repr

/-- Parsing of one response line (lines 185-194).  The code splits on
`,` skipping empty parts, warns when the field count differs from 4,
and then unconditionally reads `parts[0]`, `parts[1]`, `parts[2]` and
`parts[3]`.  When the line has fewer than 4 fields those reads are
out-of-bounds `QList` accesses (undefined behaviour), modelled as
`none`; extra fields beyond the fourth are ignored. -/
def parseCropLine (line : List Char) : Option CropEntry :=
  if h : 4 ≤ (splitSkipEmpty ',' line).length then
    some { key := (splitSkipEmpty ',' line).get ⟨0, by omega⟩
           name := cString (fromHex (toLatin1 ((splitSkipEmpty ',' line).get ⟨1, by omega⟩)))
           w := qToInt ((splitSkipEmpty ',' line).get ⟨2, by omega⟩)
           h := qToInt ((splitSkipEmpty ',' line).get ⟨3, by omega⟩) }
  else
    none

/-- Buffer filling for one parsed entry (lines 200-228).  `env k n` is
the `n`-th float stored in the shared segment named `k`; `attachOk k`
tells whether `QSharedMemory::attach` succeeds on `k`.  On success the
code allocates a `w × h × 1 × 4` image and copies `w*h*4` floats from
the segment; on failure it only warns, leaving the slot's empty image in
place.  Lock and detach failures only warn and change nothing
observable. -/
def imageForEntry (env : List Char → Nat → α) (attachOk : List Char → Bool)
    (e : CropEntry) : GImg α :=
  if attachOk e.key then
    { width := u32 e.w
      height := u32 e.h
      depth := 1
      spectrum := 4
      data := (List.range (u32 e.w * u32 e.h * 4)).map (env e.key) }
  else
    emptyGImg α

/-- Parsing loop over all response lines (lines 184-195), in order;
`none` as soon as one line triggers an out-of-bounds access. -/
def parseCropLines : List (List Char) → Option (List CropEntry)
  | [] => some []
  | l :: rest =>
    match parseCropLine l, parseCropLines rest with
    | some e, some es => some (e :: es)
    | _, _ => none

/-- Response-processing part of `getCroppedImages` (lines 164-228).
`images0`/`names0` are the in-out `gmic_list` arguments.  An empty
answer returns early leaving them untouched; otherwise the answer is
split into lines, both lists are re-assigned to the line count, and each
line is parsed and its buffer filled in order.  A `none` result marks an
execution that performed an out-of-bounds field access on a short
line. -/
def getCroppedImages (env : List Char → Nat → α) (attachOk : List Char → Bool)
    (images0 : List (GImg α)) (names0 : List (List Nat)) (answer : List Char) :
    Option (List (GImg α) × List (List Nat)) :=
  if answer.isEmpty then
    some (images0, names0)
  else
    match parseCropLines (splitSkipEmpty '\n' answer) with
    | none => none
    | some entries =>
      some (entries.map (imageForEntry env attachOk), entries.map CropEntry.name)

/-! ### `outputImages` (host_krita.cpp lines 235-277) -/

/-- Image handed to `outputImages`: CImg dimensions, raw samples and the
NUL-stripped layer name.  Samples are `Int` placeholders for floats
(only moved, never computed with). -/
structure OImg where
  width : Nat
  height : Nat
  spectrum : Nat
  data : List Int
  name : List Nat
deriving DecidableEq, Repr

/-- One shared-memory segment tracked by the process-wide registry
`sharedMemorySegments`.  Keys are drawn from a counter modelling the
freshly generated `QUuid` names (distinct across the whole run).
`content` is what was copied in; a segment whose creation failed holds
nothing. -/
structure OutSeg where
  key : Nat
  size : Nat
  content : List Int
deriving DecidableEq, Repr

/-- Hex rendering of a byte list, as `QByteArray::toHex` (lowercase,
high nibble first). -/
def toHexChar (n : Nat) : Char :=
  if n < 10 then Char.ofNat (48 + n) else Char.ofNat (87 + n)

/-- Hex encoding of the layer name placed in a `layer=` message line. -/
def toHex (bytes : List Nat) : List Char :=
  bytes.flatMap (fun b => [toHexChar (b / 16 % 16), toHexChar (b % 16)])

/-- One `layer=key,hexName,spectrum,width,height` line of the composite
`gmic_qt_output_images` message (line 274). -/
structure LayerLine where
  key : Nat
  hexName : List Char
  spectrum : Nat
  width : Nat
  height : Nat
deriving DecidableEq, Repr

/-- The message line built for image `img` in the segment keyed `k`. -/
def layerOf (k : Nat) (img : OImg) : LayerLine :=
  ⟨k, toHex img.name, img.spectrum, img.width, img.height⟩

/-- Per-image loop of `outputImages` (lines 254-275).  For each image a
segment is appended to the registry first (line 261) and only then
created (line 263): on creation failure the function warns and returns
at once, sending nothing; on success `w*h*spectrum` floats are copied in
and a `layer=` line is appended to the accumulating message.
`createOk k` tells whether creating the segment keyed `k` succeeds.
Returns the next fresh key, the new registry, and `some` message lines
when the loop completed (the message is then sent), `none` when it
aborted. -/
def outLoop (createOk : Nat → Bool) :
    Nat → List OutSeg → List LayerLine → List OImg →
    (Nat × List OutSeg) × Option (List LayerLine)
  | counter, reg, acc, [] => ((counter, reg), some acc)
  | counter, reg, acc, img :: rest =>
    let sz := img.width * img.height * img.spectrum * 4
    if createOk counter then
      outLoop createOk (counter + 1)
        (reg ++ [⟨counter, sz, img.data.take (img.width * img.height * img.spectrum)⟩])
        (acc ++ [layerOf counter img]) rest
    else
      ((counter + 1, reg ++ [⟨counter, sz, []⟩]), none)

/-- `outputImages` (lines 235-277).  The state is the pair of the next
fresh segment key and the registry `sharedMemorySegments`.  Lines
240-246 first detach and delete every previously tracked segment and
clear the registry; the loop then creates one segment per image.  The
second component is `some` of the message's layer lines when the
composite command was sent, `none` when a creation failure dropped the
batch. -/
def outputImages (st : Nat × List OutSeg) (images : List OImg)
    (createOk : Nat → Bool) : (Nat × List OutSeg) × Option (List LayerLine) :=
  outLoop createOk st.1 [] [] images

/-! ### `sendMessageSynchronously` length-prefix wait (lines 94-100) -/

/-- Outcome of the wait loop: the 4-byte prefix became available at poll
`t`, or the socket turned invalid at poll `t` and the empty answer was
returned. -/
inductive WaitResult where
  | gotPrefix (t : Nat)
  | stale (t : Nat)
deriving DecidableEq, Repr

/-- The `while (socket.bytesAvailable() < 4)` loop: `avail t` is
`bytesAvailable()` and `valid t` is `isValid()` at the `t`-th iteration;
each iteration otherwise blocks in `waitForReadyRead(1000)` for at most
one second.  `fuel` bounds the number of iterations unrolled: `none`
means the loop is still running after `fuel` iterations, so the loop
terminates exactly when some fuel yields `some`. -/
def waitLoop (avail : Nat → Nat) (valid : Nat → Bool) :
    Nat → Nat → Option WaitResult
  | 0, _ => none
  | fuel + 1, t =>
    if 4 ≤ avail t then some (.gotPrefix t)
    else if valid t = false then some (.stale t)
    else waitLoop avail valid fuel (t + 1)

/-- A concrete 1×1×1-spectrum image used to exercise `outputImages` on
explicit inputs. -/
def sampleOutImg : OImg :=
  ⟨1, 1, 1, [7], [97]⟩

end HostKrita

namespace HostKrita

/-! ## Helper lemmas -/

theorem qtTrim_subset {a : Char} {l : List Char} (h : a ∈ qtTrim l) : a ∈ l := by
  unfold qtTrim at h
  rw [List.mem_reverse] at h
  have h1 := (List.dropWhile_sublist (l := (l.dropWhile isQtSpace).reverse)
    (p := isQtSpace)).mem h
  rw [List.mem_reverse] at h1
  exact (List.dropWhile_sublist (l := l) (p := isQtSpace)).mem h1

theorem qToInt_nonneg {s : List Char} (h : '-' ∉ s) : 0 ≤ qToInt s := by
  unfold qToInt
  have ht : '-' ∉ qtTrim s := fun hm => h (qtTrim_subset hm)
  rcases hts : qtTrim s with _ | ⟨c, r⟩
  · simp [splitSign, digitsToNat?]
  · have hc : c ≠ '-' := by
      intro hc
      exact ht (hts ▸ hc ▸ List.mem_cons_self _ _)
    simp only [splitSign, if_neg hc]
    by_cases hp : c = '+' <;>
      · simp only [hp, if_true, if_false, reduceIte]
        cases hd : digitsToNat? _ <;> simp only []
        · exact le_refl 0
        · split_ifs <;> omega

theorem splitSkipEmpty_nil (sep : Char) : splitSkipEmpty sep [] = [] := rfl

theorem isEmpty_false_of_ne {α : Type} {l : List α} (h : l ≠ []) :
    l.isEmpty = false := by
  cases l
  · exact absurd rfl h
  · rfl

theorem parseCropLine_isSome {l : List Char}
    (h4 : 4 ≤ (splitSkipEmpty ',' l).length) : ∃ e, parseCropLine l = some e := by
  unfold parseCropLine
  rw [dif_pos h4]
  exact ⟨_, rfl⟩

theorem parseCropLines_spec (lines : List (List Char))
    (h : ∀ l ∈ lines, 4 ≤ (splitSkipEmpty ',' l).length) :
    ∃ es, parseCropLines lines = some es ∧ es.length = lines.length ∧
      ∀ i l, lines.get? i = some l →
        ∃ e, es.get? i = some e ∧ parseCropLine l = some e := by
  induction lines with
  | nil =>
    refine ⟨[], rfl, rfl, ?_⟩
    intro i l hl
    simp at hl
  | cons a rest ih =>
    obtain ⟨e, he⟩ := parseCropLine_isSome (h a (List.mem_cons_self _ _))
    obtain ⟨es, hes, hlen, hidx⟩ := ih (fun x hx => h x (List.mem_cons_of_mem _ hx))
    refine ⟨e :: es, ?_, by simp [hlen], ?_⟩
    · simp [parseCropLines, he, hes]
    · intro i x hx
      cases i with
      | zero =>
        simp only [List.get?_cons_zero, Option.some.injEq] at hx
        subst hx
        exact ⟨e, rfl, he⟩
      | succ n =>
        simp only [List.get?_cons_succ] at hx ⊢
        exact hidx n x hx

theorem parseCropLines_none (lines : List (List Char))
    (h : ∃ l ∈ lines, (splitSkipEmpty ',' l).length < 4) :
    parseCropLines lines = none := by
  induction lines with
  | nil =>
    rcases h with ⟨l, hl, _⟩
    simp at hl
  | cons a rest ih =>
    rcases h with ⟨l, hl, hlt⟩
    rcases List.mem_cons.mp hl with rfl | hmem
    · have hnone : parseCropLine l = none := by
        unfold parseCropLine
        rw [dif_neg (by omega)]
      cases hrest : parseCropLines rest <;> simp [parseCropLines, hnone, hrest]
    · have hrest := ih ⟨l, hmem, hlt⟩
      cases hpl : parseCropLine a <;> simp [parseCropLines, hpl, hrest]

theorem outLoop_nil (ok : Nat → Bool) (c : Nat) (reg : List OutSeg)
    (acc : List LayerLine) : outLoop ok c reg acc [] = ((c, reg), some acc) := rfl

theorem outLoop_cons_true {ok : Nat → Bool} {c : Nat} {img : OImg}
    (hok : ok c = true) (reg : List OutSeg) (acc : List LayerLine)
    (rest : List OImg) :
    outLoop ok c reg acc (img :: rest) =
      outLoop ok (c + 1)
        (reg ++ [⟨c, img.width * img.height * img.spectrum * 4,
          img.data.take (img.width * img.height * img.spectrum)⟩])
        (acc ++ [layerOf c img]) rest := by
  simp [outLoop, hok]

theorem outLoop_cons_false {ok : Nat → Bool} {c : Nat} {img : OImg}
    (hok : ok c = false) (reg : List OutSeg) (acc : List LayerLine)
    (rest : List OImg) :
    outLoop ok c reg acc (img :: rest) =
      ((c + 1, reg ++ [⟨c, img.width * img.height * img.spectrum * 4, []⟩]),
        none) := by
  simp [outLoop, hok]

theorem outLoop_reg_key_ge (ok : Nat → Bool) (l : List OImg) :
    ∀ c reg acc, ∀ s ∈ (outLoop ok c reg acc l).1.2, s ∈ reg ∨ c ≤ s.key := by
  induction l with
  | nil =>
    intro c reg acc s hs
    exact Or.inl hs
  | cons img rest ih =>
    intro c reg acc s hs
    cases hok : ok c with
    | true =>
      rw [outLoop_cons_true hok] at hs
      rcases ih (c + 1) _ _ s hs with hmem | hge
      · rcases List.mem_append.mp hmem with hm | hm
        · exact Or.inl hm
        · rcases List.mem_singleton.mp hm with rfl
          exact Or.inr (le_refl c)
      · exact Or.inr (by omega)
    | false =>
      rw [outLoop_cons_false hok] at hs
      rcases List.mem_append.mp hs with hm | hm
      · exact Or.inl hm
      · rcases List.mem_singleton.mp hm with rfl
        exact Or.inr (le_refl c)

theorem outLoop_counter_ge (ok : Nat → Bool) (l : List OImg) :
    ∀ c reg acc, c ≤ (outLoop ok c reg acc l).1.1 := by
  induction l with
  | nil =>
    intro c reg acc
    exact le_refl c
  | cons img rest ih =>
    intro c reg acc
    cases hok : ok c with
    | true =>
      rw [outLoop_cons_true hok]
      exact le_trans (Nat.le_succ c) (ih (c + 1) _ _)
    | false =>
      rw [outLoop_cons_false hok]
      exact Nat.le_succ c

theorem outLoop_key_lt (ok : Nat → Bool) (l : List OImg) :
    ∀ c reg acc, (∀ s ∈ reg, s.key < c) →
      ∀ s ∈ (outLoop ok c reg acc l).1.2, s.key < (outLoop ok c reg acc l).1.1 := by
  induction l with
  | nil =>
    intro c reg acc hreg s hs
    exact hreg s hs
  | cons img rest ih =>
    intro c reg acc hreg s hs
    cases hok : ok c with
    | true =>
      rw [outLoop_cons_true hok] at hs ⊢
      refine ih (c + 1) _ _ ?_ s hs
      intro x hx
      rcases List.mem_append.mp hx with hm | hm
      · exact lt_trans (hreg x hm) (Nat.lt_succ_self c)
      · rcases List.mem_singleton.mp hm with rfl
        exact Nat.lt_succ_self c
    | false =>
      rw [outLoop_cons_false hok] at hs ⊢
      rcases List.mem_append.mp hs with hm | hm
      · exact lt_trans (hreg s hm) (Nat.lt_succ_self c)
      · rcases List.mem_singleton.mp hm with rfl
        exact Nat.lt_succ_self c

theorem outLoop_len_le (ok : Nat → Bool) (l : List OImg) :
    ∀ c reg acc, ((outLoop ok c reg acc l).1.2).length ≤ reg.length + l.length := by
  induction l with
  | nil =>
    intro c reg acc
    exact Nat.le_add_right _ _
  | cons img rest ih =>
    intro c reg acc
    cases hok : ok c with
    | true =>
      rw [outLoop_cons_true hok]
      have h := ih (c + 1)
        (reg ++ [⟨c, img.width * img.height * img.spectrum * 4,
          img.data.take (img.width * img.height * img.spectrum)⟩])
        (acc ++ [layerOf c img])
      simp only [List.length_append, List.length_cons, List.length_nil] at h ⊢
      omega
    | false =>
      rw [outLoop_cons_false hok]
      show (reg ++ [(⟨c, img.width * img.height * img.spectrum * 4, []⟩ : OutSeg)]).length ≤
        reg.length + (img :: rest).length
      simp only [List.length_append, List.length_cons, List.length_nil]
      omega

theorem outLoop_all_ok (ok : Nat → Bool) (l : List OImg) :
    ∀ c reg acc, (∀ i, i < l.length → ok (c + i) = true) →
      ((outLoop ok c reg acc l).1.2).length = reg.length + l.length := by
  induction l with
  | nil =>
    intro c reg acc _
    simp [outLoop_nil]
  | cons img rest ih =>
    intro c reg acc h
    have hok : ok c = true := by
      have h0 := h 0 (by simp only [List.length_cons]; omega)
      simpa using h0
    rw [outLoop_cons_true hok]
    have heq := ih (c + 1)
      (reg ++ [⟨c, img.width * img.height * img.spectrum * 4,
        img.data.take (img.width * img.height * img.spectrum)⟩])
      (acc ++ [layerOf c img])
      (fun i hi => by
        have hstep : c + 1 + i = c + (i + 1) := by omega
        rw [hstep]
        exact h (i + 1) (by simp only [List.length_cons]; omega))
    simp only [List.length_append, List.length_cons, List.length_nil] at heq ⊢
    omega

theorem outLoop_fail (ok : Nat → Bool) (l : List OImg) :
    ∀ j c reg acc, j < l.length → ok (c + j) = false →
      (∀ i, i < j → ok (c + i) = true) →
      (outLoop ok c reg acc l).2 = none ∧
      ((outLoop ok c reg acc l).1.2).length = reg.length + j + 1 ∧
      (outLoop ok c reg acc l).1.1 = c + j + 1 := by
  induction l with
  | nil =>
    intro j c reg acc hj
    simp at hj
  | cons img rest ih =>
    intro j c reg acc hj hfail hok
    cases j with
    | zero =>
      have hc : ok c = false := by simpa using hfail
      rw [outLoop_cons_false hc]
      refine ⟨rfl, ?_, rfl⟩
      show (reg ++ [(⟨c, img.width * img.height * img.spectrum * 4, []⟩ : OutSeg)]).length =
        reg.length + 0 + 1
      simp only [List.length_append, List.length_cons, List.length_nil]
    | succ j' =>
      have hok0 : ok c = true := by
        have h0 := hok 0 (by omega)
        simpa using h0
      rw [outLoop_cons_true hok0]
      have h := ih j' (c + 1)
        (reg ++ [⟨c, img.width * img.height * img.spectrum * 4,
          img.data.take (img.width * img.height * img.spectrum)⟩])
        (acc ++ [layerOf c img])
        (by simp only [List.length_cons] at hj; omega)
        (by
          have hstep : c + 1 + j' = c + (j' + 1) := by omega
          rw [hstep]
          exact hfail)
        (fun i hi => by
          have hstep : c + 1 + i = c + (i + 1) := by omega
          rw [hstep]
          exact hok (i + 1) (by omega))
      refine ⟨h.1, ?_, ?_⟩
      · have h2 := h.2.1
        simp only [List.length_append, List.length_cons, List.length_nil] at h2
        omega
      · have h3 := h.2.2
        omega

/-! ## Claim C4: sentinel crop rectangle -/

/-- C4: whenever `x`, `y`, `width` and `height` are all negative, the
crop rectangle encoded into the outgoing `gmic_qt_get_cropped_images`
command is exactly `(0,0,1,1)`, whatever the magnitudes; when not all
four are negative, the rectangle is encoded unchanged. -/
theorem getCroppedImagesRequest_sentinel (x y w h : ℚ) (mode : Int) :
    (x < 0 ∧ y < 0 ∧ w < 0 ∧ h < 0 →
      getCroppedImagesRequest x y w h mode = ⟨mode, 0, 0, 1, 1⟩) ∧
    (¬(x < 0 ∧ y < 0 ∧ w < 0 ∧ h < 0) →
      getCroppedImagesRequest x y w h mode = ⟨mode, x, y, w, h⟩) := by
  constructor <;> intro hc <;>
    simp [getCroppedImagesRequest, normalizeRect, hc]

/-- Witness for C4: a concrete all-negative rectangle normalises to the
unit rectangle, and a concrete mixed-sign one passes through. -/
theorem getCroppedImagesRequest_sentinel_witness :
    getCroppedImagesRequest (-1) (-2) (-3) (-4) 1 = ⟨1, 0, 0, 1, 1⟩ ∧
    getCroppedImagesRequest 5 (-2) (-3) (-4) 1 = ⟨1, 5, -2, -3, -4⟩ :=
  ⟨(getCroppedImagesRequest_sentinel (-1) (-2) (-3) (-4) 1).1 (by norm_num),
   (getCroppedImagesRequest_sentinel 5 (-2) (-3) (-4) 1).2 (by norm_num)⟩

/-! ## Claim C5: getLayersExtent defaults -/

/-- C5: for every response that is empty, or that does not split on `,`
into exactly two fields, `getLayersExtent` yields width 0 and
height 0. -/
theorem getLayersExtent_defaults (answer : List Char)
    (h : answer = [] ∨ (splitSkipEmpty ',' answer).length ≠ 2) :
    getLayersExtent answer = (0, 0) := by
  unfold getLayersExtent
  split_ifs with h1 h2
  · exfalso
    rcases h with h | h
    · subst h
      simp at h1
    · exact h h2
  · rfl
  · rfl

/-- Witness for C5: the empty response and a three-field response both
give `(0, 0)`. -/
theorem getLayersExtent_defaults_witness :
    getLayersExtent [] = (0, 0) ∧ getLayersExtent ("1,2,3".data) = (0, 0) :=
  ⟨getLayersExtent_defaults [] (Or.inl rfl),
   getLayersExtent_defaults ("1,2,3".data) (Or.inr (by decide))⟩

/-! ## Claim C6: sign of getLayersExtent results -/

/-- Counterexample to C6: the response `"-5,7"` splits into the two
fields `-5` and `7`, and `QString::toInt` parses the sign, so the
produced width is the negative integer `-5`. -/
theorem getLayersExtent_negative_cex :
    getLayersExtent ("-5,7".data) = (-5, 7) ∧ (-5 : Int) < 0 := by
  constructor
  · decide
  · decide

/-- C6 amended: the width and height produced by `getLayersExtent` are
non-negative for every response whose comma-separated fields contain no
`-` character; a field with a leading minus sign parses to a negative
value. -/
theorem getLayersExtent_nonneg (answer : List Char)
    (h : ∀ l ∈ splitSkipEmpty ',' answer, '-' ∉ l) :
    0 ≤ (getLayersExtent answer).1 ∧ 0 ≤ (getLayersExtent answer).2 := by
  unfold getLayersExtent
  split_ifs with h1 h2
  · exact ⟨qToInt_nonneg (h _ (List.get_mem _ _ _)),
      qToInt_nonneg (h _ (List.get_mem _ _ _))⟩
  · exact ⟨le_refl 0, le_refl 0⟩
  · exact ⟨le_refl 0, le_refl 0⟩

/-- Witness for C6 (amended): a concrete digits-only response yields
non-negative width and height. -/
theorem getLayersExtent_nonneg_witness :
    0 ≤ (getLayersExtent ("12,34".data)).1 ∧
    0 ≤ (getLayersExtent ("12,34".data)).2 :=
  getLayersExtent_nonneg ("12,34".data) (by decide)

/-! ## Claim C1: line order of getCroppedImages -/

/-- C1: for a crop response consisting of `N` well-formed lines (exactly
4 comma-separated fields each, `N ≥ 1`), `getCroppedImages` populates
exactly `N` image buffers and `N` names, and the buffer and name at
each index are the ones decoded from the response line of that same
index. -/
theorem getCroppedImages_line_order {α : Type} (env : List Char → Nat → α)
    (attachOk : List Char → Bool) (images0 : List (GImg α))
    (names0 : List (List Nat)) (answer : List Char)
    (hne : 0 < (splitSkipEmpty '\n' answer).length)
    (hwf : ∀ l ∈ splitSkipEmpty '\n' answer, (splitSkipEmpty ',' l).length = 4) :
    ∃ imgs names,
      getCroppedImages env attachOk images0 names0 answer = some (imgs, names) ∧
      imgs.length = (splitSkipEmpty '\n' answer).length ∧
      names.length = (splitSkipEmpty '\n' answer).length ∧
      ∀ i l, (splitSkipEmpty '\n' answer).get? i = some l →
        ∃ e, parseCropLine l = some e ∧
          names.get? i = some e.name ∧
          imgs.get? i = some (imageForEntry env attachOk e) := by
  have hans : answer ≠ [] := by
    intro h
    rw [h] at hne
    simp [splitSkipEmpty_nil] at hne
  obtain ⟨es, hes, hlen, hidx⟩ :=
    parseCropLines_spec _ (fun l hl => (hwf l hl).ge)
  refine ⟨es.map (imageForEntry env attachOk), es.map CropEntry.name, ?_,
    by simp [hlen], by simp [hlen], ?_⟩
  · unfold getCroppedImages
    rw [if_neg (by simp [isEmpty_false_of_ne hans])]
    rw [hes]
  · intro i l hl
    obtain ⟨e, hei, hpl⟩ := hidx i l hl
    exact ⟨e, hpl, by rw [List.get?_map, hei]; rfl, by rw [List.get?_map, hei]; rfl⟩

/-- Witness for C1: a concrete two-line response produces two buffers
and two names, each decoded from its own line. -/
theorem getCroppedImages_line_order_witness :
    ∃ imgs names,
      getCroppedImages (fun _ n => n) (fun _ => true) ([] : List (GImg Nat)) []
          ("k1,61,1,1\nk2,62,1,2".data) = some (imgs, names) ∧
      imgs.length = (splitSkipEmpty '\n' ("k1,61,1,1\nk2,62,1,2".data)).length ∧
      names.length = (splitSkipEmpty '\n' ("k1,61,1,1\nk2,62,1,2".data)).length ∧
      ∀ i l, (splitSkipEmpty '\n' ("k1,61,1,1\nk2,62,1,2".data)).get? i = some l →
        ∃ e, parseCropLine l = some e ∧
          names.get? i = some e.name ∧
          imgs.get? i = some (imageForEntry (fun _ n => n) (fun _ => true) e) :=
  getCroppedImages_line_order (fun _ n => n) (fun _ => true) [] []
    ("k1,61,1,1\nk2,62,1,2".data) (by decide) (by decide)

/-! ## Claim C2: the worked single-line example -/

/-- Counterexample to C2: the spec's example line
`"key1,6c617965723031,4,2,2"` has five comma-separated fields, so the
code (which reads `parts[2]` as the width and `parts[3]` as the height)
decodes an image of width 4 and height 2 — not the claimed width 2 and
height 2. -/
theorem getCroppedImages_example_cex :
    (getCroppedImages (fun _ n => n) (fun _ => true) ([] : List (GImg Nat)) []
        ("key1,6c617965723031,4,2,2".data)).map
        (fun r => r.1.map (fun g => (g.width, g.height))) = some [(4, 2)] ∧
    [((4 : Nat), (2 : Nat))] ≠ [(2, 2)] :=
  ⟨by decide, by decide⟩

/-- C2 amended: the single crop-response line
`"key1,6c617965723031,4,2,2"` has five fields (so the code logs the
wrong-answer warning); it decodes into exactly one image buffer of
width 4, height 2, depth 1 and 4 channels, filled with `4*2*4 = 32`
floats from the shared segment, and the associated name is the hex
decoding of `6c617965723031`, i.e. `"layer01"` (byte values
`[108, 97, 121, 101, 114, 48, 49]`). -/
theorem getCroppedImages_example :
    (splitSkipEmpty ',' ("key1,6c617965723031,4,2,2".data)).length = 5 ∧
    getCroppedImages (fun _ n => n) (fun _ => true) ([] : List (GImg Nat)) []
        ("key1,6c617965723031,4,2,2".data) =
      some ([⟨4, 2, 1, 4, (List.range 32).map (fun n => n)⟩],
            [[108, 97, 121, 101, 114, 48, 49]]) :=
  ⟨by decide, by decide⟩

/-! ## Claim C3: malformed lines -/

/-- Counterexample to C3: a response containing the malformed line
`"bad"` (one field).  The code still reads `parts[1]`, `parts[2]` and
`parts[3]` after logging the warning, which are out-of-bounds accesses
on the one-element field list; the execution is undefined (`none` in
this model) and the subsequent well-formed line is not safely
processed. -/
theorem getCroppedImages_short_line_cex :
    (splitSkipEmpty ',' ("bad".data)).length = 1 ∧
    parseCropLine ("bad".data) = none ∧
    getCroppedImages (fun _ n => n) (fun _ => true) ([] : List (GImg Nat)) []
        ("bad\nk1,61,2,2".data) = none :=
  ⟨by decide, by decide, by decide⟩

/-- C3 amended: a malformed line is logged, and when every line has at
least 4 fields (so malformed means extra fields) all field reads stay
in bounds and every line's entry is still parsed and populated in line
order; but a line with fewer than 4 fields makes the field reads at
indices 1-3 go out of the line's split bounds (undefined behaviour,
modelled by `none`), so the batch is not safely completed. -/
theorem getCroppedImages_malformed {α : Type} (env : List Char → Nat → α)
    (attachOk : List Char → Bool) (images0 : List (GImg α))
    (names0 : List (List Nat)) (answer : List Char) :
    ((answer ≠ [] ∧
        ∀ l ∈ splitSkipEmpty '\n' answer, 4 ≤ (splitSkipEmpty ',' l).length) →
      ∃ imgs names,
        getCroppedImages env attachOk images0 names0 answer = some (imgs, names) ∧
        imgs.length = (splitSkipEmpty '\n' answer).length ∧
        names.length = (splitSkipEmpty '\n' answer).length ∧
        ∀ i l, (splitSkipEmpty '\n' answer).get? i = some l →
          ∃ e, parseCropLine l = some e ∧
            names.get? i = some e.name ∧
            imgs.get? i = some (imageForEntry env attachOk e)) ∧
    ((∃ l ∈ splitSkipEmpty '\n' answer, (splitSkipEmpty ',' l).length < 4) →
      getCroppedImages env attachOk images0 names0 answer = none) := by
  constructor
  · rintro ⟨hans, hwf⟩
    obtain ⟨es, hes, hlen, hidx⟩ := parseCropLines_spec _ hwf
    refine ⟨es.map (imageForEntry env attachOk), es.map CropEntry.name, ?_,
      by simp [hlen], by simp [hlen], ?_⟩
    · unfold getCroppedImages
      rw [if_neg (by simp [isEmpty_false_of_ne hans])]
      rw [hes]
    · intro i l hl
      obtain ⟨e, hei, hpl⟩ := hidx i l hl
      exact ⟨e, hpl, by rw [List.get?_map, hei]; rfl, by rw [List.get?_map, hei]; rfl⟩
  · intro hbad
    have hnone := parseCropLines_none _ hbad
    have hans : answer ≠ [] := by
      intro h
      rw [h] at hbad
      rcases hbad with ⟨l, hl, _⟩
      simp [splitSkipEmpty_nil] at hl
    unfold getCroppedImages
    rw [if_neg (by simp [isEmpty_false_of_ne hans])]
    rw [hnone]

/-- Witness for C3 (amended): a response whose single malformed line has
six fields is fully processed, while a response whose first line has two
fields hits the out-of-bounds access. -/
theorem getCroppedImages_malformed_witness :
    (∃ imgs names,
      getCroppedImages (fun _ n => n) (fun _ => true) ([] : List (GImg Nat)) []
          ("k1,61,1,1,9,9".data) = some (imgs, names) ∧
      imgs.length = (splitSkipEmpty '\n' ("k1,61,1,1,9,9".data)).length ∧
      names.length = (splitSkipEmpty '\n' ("k1,61,1,1,9,9".data)).length ∧
      ∀ i l, (splitSkipEmpty '\n' ("k1,61,1,1,9,9".data)).get? i = some l →
        ∃ e, parseCropLine l = some e ∧
          names.get? i = some e.name ∧
          imgs.get? i = some (imageForEntry (fun _ n => n) (fun _ => true) e)) ∧
    getCroppedImages (fun _ n => n) (fun _ => true) ([] : List (GImg Nat)) []
        ("k1,61\nk2,62,1,1".data) = none :=
  ⟨(getCroppedImages_malformed (fun _ n => n) (fun _ => true) [] []
      ("k1,61,1,1,9,9".data)).1 ⟨by decide, by decide⟩,
   (getCroppedImages_malformed (fun _ n => n) (fun _ => true) [] []
      ("k1,61\nk2,62,1,1".data)).2 ⟨"k1,61".data, by decide, by decide⟩⟩

/-! ## Claim C10: buffer shape is fixed -/

/-- C10: when the attaches succeed, every image buffer produced by
`getCroppedImages` on a non-empty answer has depth 1 and exactly 4
channels, and holds exactly `width*height*4` float samples copied from
the shared segment; no per-line field selects the channel count. -/
theorem getCroppedImages_channels {α : Type} (env : List Char → Nat → α)
    (attachOk : List Char → Bool) (images0 : List (GImg α))
    (names0 : List (List Nat)) (answer : List Char)
    (imgs : List (GImg α)) (names : List (List Nat))
    (hatt : ∀ k, attachOk k = true) (hans : answer ≠ [])
    (hres : getCroppedImages env attachOk images0 names0 answer =
      some (imgs, names)) :
    ∀ img ∈ imgs, img.depth = 1 ∧ img.spectrum = 4 ∧
      img.data.length = img.width * img.height * 4 := by
  unfold getCroppedImages at hres
  rw [if_neg (by simp [isEmpty_false_of_ne hans])] at hres
  cases hpl : parseCropLines (splitSkipEmpty '\n' answer) with
  | none =>
    rw [hpl] at hres
    exact absurd hres (by simp)
  | some es =>
    rw [hpl] at hres
    simp only [Option.some.injEq, Prod.mk.injEq] at hres
    obtain ⟨h1, h2⟩ := hres
    intro img hmem
    rw [← h1] at hmem
    obtain ⟨e, _, himg⟩ := List.mem_map.mp hmem
    rw [← himg]
    simp [imageForEntry, hatt e.key]

/-- Witness for C10: the image decoded from the concrete response
`"k,61,1,1"` has depth 1, 4 channels and `1*1*4` samples. -/
theorem getCroppedImages_channels_witness :
    (⟨1, 1, 1, 4, (List.range 4).map (fun n => n)⟩ : GImg Nat).depth = 1 ∧
    (⟨1, 1, 1, 4, (List.range 4).map (fun n => n)⟩ : GImg Nat).spectrum = 4 ∧
    (⟨1, 1, 1, 4, (List.range 4).map (fun n => n)⟩ : GImg Nat).data.length =
      (⟨1, 1, 1, 4, (List.range 4).map (fun n => n)⟩ : GImg Nat).width *
        (⟨1, 1, 1, 4, (List.range 4).map (fun n => n)⟩ : GImg Nat).height * 4 :=
  getCroppedImages_channels (fun _ n => n) (fun _ => true) [] [] ("k,61,1,1".data)
    [⟨1, 1, 1, 4, (List.range 4).map (fun n => n)⟩] [[97]]
    (fun _ => rfl) (by decide) (by decide)
    ⟨1, 1, 1, 4, (List.range 4).map (fun n => n)⟩ (List.mem_singleton.mpr rfl)

/-! ## Claim C7: registry after two outputImages calls -/

/-- Counterexample to C7: with a first batch of one image and a second
batch of two images whose first segment creation fails, the second call
returns early and the registry holds 1 segment, not the 2 segments of
the second batch (the failed-creation segment was already appended, the
second image's segment was never created). -/
theorem outputImages_twice_cex :
    ((outputImages (outputImages (0, []) [sampleOutImg] (fun _ => true)).1
        [sampleOutImg, sampleOutImg] (fun _ => false)).1.2).length = 1 ∧
    (1 : Nat) ≠ [sampleOutImg, sampleOutImg].length := by
  constructor
  · rfl
  · decide

/-- C7 amended: after two successive `outputImages` calls the registry
contains only segments created during the second call (every first-batch
segment was detached, freed and dropped from the registry, and second
batch keys are all fresh), its size never exceeds the second batch's
image count, and it equals that count when every segment creation of the
second call succeeds. -/
theorem outputImages_twice (st : Nat × List OutSeg) (images1 images2 : List OImg)
    (ok1 ok2 : Nat → Bool) :
    (((outputImages (outputImages st images1 ok1).1 images2 ok2).1.2).length ≤
      images2.length) ∧
    (∀ s1 ∈ (outputImages st images1 ok1).1.2,
      ∀ s2 ∈ (outputImages (outputImages st images1 ok1).1 images2 ok2).1.2,
        s1.key ≠ s2.key) ∧
    ((∀ i, i < images2.length →
        ok2 ((outputImages st images1 ok1).1.1 + i) = true) →
      ((outputImages (outputImages st images1 ok1).1 images2 ok2).1.2).length =
        images2.length) := by
  refine ⟨?_, ?_, ?_⟩
  · have h := outLoop_len_le ok2 images2 (outputImages st images1 ok1).1.1 [] []
    simpa [outputImages] using h
  · intro s1 hs1 s2 hs2
    have h1 : s1.key < (outputImages st images1 ok1).1.1 := by
      have h := outLoop_key_lt ok1 images1 st.1 [] [] (by intro s hs; simp at hs)
        s1 hs1
      exact h
    have h2 : (outputImages st images1 ok1).1.1 ≤ s2.key := by
      have h := outLoop_reg_key_ge ok2 images2 (outputImages st images1 ok1).1.1
        [] [] s2 hs2
      rcases h with hm | hge
      · simp at hm
      · exact hge
    omega
  · intro h
    have heq := outLoop_all_ok ok2 images2 (outputImages st images1 ok1).1.1 [] [] h
    simpa [outputImages] using heq

/-- Witness for C7 (amended): with all creations succeeding, the second
of two concrete calls leaves exactly the 2 segments of its 2-image
batch. -/
theorem outputImages_twice_witness :
    ((outputImages (outputImages (0, []) [sampleOutImg] (fun _ => true)).1
        [sampleOutImg, sampleOutImg] (fun _ => true)).1.2).length = 2 :=
  (outputImages_twice (0, []) [sampleOutImg] [sampleOutImg, sampleOutImg]
    (fun _ => true) (fun _ => true)).2.2 (fun i _ => rfl)

/-! ## Claim C8: creation failure aborts the batch -/

/-- C8: when creating the shared segment of image `j` fails (all earlier
creations having succeeded), `outputImages` returns at once: the
composite command is never sent (`none`), only the `j+1` segments
appended so far are in the registry, and no further image was processed
(the key counter advanced exactly `j+1` steps). -/
theorem outputImages_create_fail (c : Nat) (reg0 : List OutSeg)
    (images : List OImg) (ok : Nat → Bool) (j : Nat)
    (hj : j < images.length) (hfail : ok (c + j) = false)
    (hok : ∀ i, i < j → ok (c + i) = true) :
    (outputImages (c, reg0) images ok).2 = none ∧
    ((outputImages (c, reg0) images ok).1.2).length = j + 1 ∧
    (outputImages (c, reg0) images ok).1.1 = c + j + 1 := by
  have h := outLoop_fail ok images j c [] [] hj hfail hok
  simpa [outputImages] using h

/-- Witness for C8: a concrete two-image batch whose second creation
fails sends nothing, leaves 2 registry entries and stops after the
second image. -/
theorem outputImages_create_fail_witness :
    (outputImages (0, []) [sampleOutImg, sampleOutImg]
      (fun k => decide (k < 1))).2 = none ∧
    ((outputImages (0, []) [sampleOutImg, sampleOutImg]
      (fun k => decide (k < 1))).1.2).length = 2 ∧
    (outputImages (0, []) [sampleOutImg, sampleOutImg]
      (fun k => decide (k < 1))).1.1 = 2 :=
  outputImages_create_fail 0 [] [sampleOutImg, sampleOutImg]
    (fun k => decide (k < 1)) 1 (by decide) (by decide) (by decide)

/-! ## Claim C9: the 4-byte wait loop -/

theorem waitLoop_run_none (avail : Nat → Nat) (valid : Nat → Bool)
    (h : ∀ t, avail t < 4 ∧ valid t = true) :
    ∀ fuel t, waitLoop avail valid fuel t = none := by
  intro fuel
  induction fuel with
  | zero =>
    intro t
    rfl
  | succ n ih =>
    intro t
    have h1 := (h t).1
    have h2 := (h t).2
    simp only [waitLoop]
    rw [if_neg (by omega), if_neg (by simp [h2])]
    exact ih (t + 1)

/-- Counterexample to C9: with a connection on which no bytes ever
arrive (`bytesAvailable` constantly 0) and a socket that stays valid,
the length-prefix wait loop never exits, for any number of iterations:
`sendMessageSynchronously` does not terminate within any bound, instead
of returning an empty response. -/
theorem sendMessageSynchronously_wait_cex :
    ¬ ∃ fuel r, waitLoop (fun _ => 0) (fun _ => true) fuel 0 = some r := by
  rintro ⟨fuel, r, hr⟩
  rw [waitLoop_run_none (fun _ => 0) (fun _ => true)
    (fun t => ⟨by norm_num, rfl⟩) fuel 0] at hr
  exact Option.noConfusion hr

/-- C9 amended: each poll of the wait loop blocks at most 1 second, but
the loop as a whole is unbounded: as long as fewer than 4 bytes are
available and the socket remains valid, the loop is still running after
any number of iterations (it exits, returning the empty answer, only
when the socket becomes invalid). -/
theorem sendMessageSynchronously_wait_unbounded (avail : Nat → Nat)
    (valid : Nat → Bool) (h : ∀ t, avail t < 4 ∧ valid t = true) :
    ∀ fuel t, waitLoop avail valid fuel t = none :=
  waitLoop_run_none avail valid h

/-- Witness for C9 (amended): on the concrete no-bytes always-valid
socket the loop is still running after 5 iterations. -/
theorem sendMessageSynchronously_wait_unbounded_witness :
    waitLoop (fun _ => 0) (fun _ => true) 5 0 = none :=
  sendMessageSynchronously_wait_unbounded (fun _ => 0) (fun _ => true)
    (fun t => ⟨by norm_num, rfl⟩) 5 0

end HostKrita
